import Mathlib

/-!
Verification development for the tmflow-dsl workflow interpreter
(lexer `rust-version/src/lexer.rs`, parser `rust-version/src/parser.rs`,
AST `rust-version/src/ast.rs`, executor `rust-version/src/executor.rs`).

The Rust code is shallowly embedded:
* the index-cursor lexer is rendered as functions consuming the remaining
  character list (the cursor position is the length of the consumed prefix);
* the recursive-descent parser is rendered as functions from the remaining
  token list, with an explicit fuel parameter standing in for the
  termination argument of Rust loops (the fuel supplied at top level is
  always sufficient, and exhaustion is an error no real run reaches);
* the executor's `&mut self` state (variables map, step-result map and the
  stdout produced by `println!`) is threaded explicitly; `HashMap::insert`
  / `get` are modeled by a most-recent-first association list, whose
  lookup returns the most recent insertion exactly like the hash map;
* numeric values (`f64` in the Rust code) are modeled exactly: decimal
  strings parse to rationals, with signed infinities and NaN for the
  keyword forms accepted by Rust's `f64::from_str`.  Rounding to binary
  floating point and overflow-to-infinity are not modeled.
-/

/-! ## Lexer (`lexer.rs`) -/

inductive TokenType where
  -- Keywords
  | Workflow | Step | Let | Var | Const | If | Else
  | Print | Log | Fetch | SendEmail | Notify
  -- Literals
  | String | Number | Identifier
  -- Operators
  | Plus | Equal | EqualEqual | NotEqual
  | Greater | Less | GreaterEqual | LessEqual | Dot
  -- Punctuation
  | LeftParen | RightParen | LeftBrace | RightBrace
  | Colon | Semicolon | Comma
  -- Special
  | Eof
deriving DecidableEq, Repr

structure Token where
  token_type : TokenType
  lexeme : String
  literal : Option String
  line : Nat
deriving DecidableEq, Repr

/-- The keyword table built in `Lexer::new`. -/
def keywordLookup : String → Option TokenType
  | "workflow" => some .Workflow
  | "step" => some .Step
  | "let" => some .Let
  | "var" => some .Var
  | "const" => some .Const
  | "if" => some .If
  | "else" => some .Else
  | "print" => some .Print
  | "log" => some .Log
  | "fetch" => some .Fetch
  | "send_email" => some .SendEmail
  | "notify" => some .Notify
  | _ => none

/-- `Lexer::string`, after the opening quote has been consumed: scan the
remaining characters for the matching quote, counting newlines.  Returns the
string body, the characters after the closing quote and the updated line
counter; if the end of input is reached first, the lexical error. -/
def scanString (quote : Char) : List Char → Nat → Except String (List Char × List Char × Nat)
  | [], _ => .error "Unterminated string"
  | c :: rest, line =>
    if c = quote then .ok ([], rest, line)
    else
      match scanString quote rest (if c = '\n' then line + 1 else line) with
      | .error e => .error e
      | .ok (body, rest', line') => .ok (c :: body, rest', line')

/-- `Lexer::number`: the first digit `c` is already consumed; scan the rest
of the integer part and an optional `.` digit+ fractional part. -/
def scanNumber (c : Char) (rest : List Char) (line : Nat) : Token × List Char :=
  let ds := rest.takeWhile Char.isDigit
  let r1 := rest.drop ds.length
  match r1 with
  | '.' :: d :: r2 =>
    if d.isDigit then
      let fs := r2.takeWhile Char.isDigit
      let r3 := r2.drop fs.length
      let lex := String.mk (c :: ds ++ '.' :: d :: fs)
      (⟨.Number, lex, some lex, line⟩, r3)
    else
      let lex := String.mk (c :: ds)
      (⟨.Number, lex, some lex, line⟩, r1)
  | _ =>
    let lex := String.mk (c :: ds)
    (⟨.Number, lex, some lex, line⟩, r1)

/-- `Lexer::identifier`: scan the remaining identifier characters and look
the text up in the keyword table.  (The Rust code uses the Unicode
`is_alphanumeric`; only ASCII identifiers occur in this language and the
embedding uses the ASCII predicate.) -/
def scanIdent (c : Char) (rest : List Char) (line : Nat) : Token × List Char :=
  let cs := rest.takeWhile (fun ch => ch.isAlphanum || ch = '_')
  let r := rest.drop cs.length
  let text := String.mk (c :: cs)
  (⟨(keywordLookup text).getD .Identifier, text, none, line⟩, r)

/-- `Lexer::scan_token`: the character `c` has just been consumed by
`advance`; produce at most one token plus the remaining input and line. -/
def scanToken (c : Char) (rest : List Char) (line : Nat) :
    Except String (Option Token × List Char × Nat) :=
  if c = '(' then .ok (some ⟨.LeftParen, "(", none, line⟩, rest, line)
  else if c = ')' then .ok (some ⟨.RightParen, ")", none, line⟩, rest, line)
  else if c = '{' then .ok (some ⟨.LeftBrace, "\x7b", none, line⟩, rest, line)
  else if c = '}' then .ok (some ⟨.RightBrace, "\x7d", none, line⟩, rest, line)
  else if c = ':' then .ok (some ⟨.Colon, ":", none, line⟩, rest, line)
  else if c = ';' then .ok (some ⟨.Semicolon, ";", none, line⟩, rest, line)
  else if c = ',' then .ok (some ⟨.Comma, ",", none, line⟩, rest, line)
  else if c = '.' then .ok (some ⟨.Dot, ".", none, line⟩, rest, line)
  else if c = '=' then
    match rest with
    | '=' :: r => .ok (some ⟨.EqualEqual, "==", none, line⟩, r, line)
    | _ => .ok (some ⟨.Equal, "=", none, line⟩, rest, line)
  else if c = '!' then
    match rest with
    | '=' :: r => .ok (some ⟨.NotEqual, "!=", none, line⟩, r, line)
    | _ => .error "Unexpected character: !"
  else if c = '<' then
    match rest with
    | '=' :: r => .ok (some ⟨.LessEqual, "<=", none, line⟩, r, line)
    | _ => .ok (some ⟨.Less, "<", none, line⟩, rest, line)
  else if c = '>' then
    match rest with
    | '=' :: r => .ok (some ⟨.GreaterEqual, ">=", none, line⟩, r, line)
    | _ => .ok (some ⟨.Greater, ">", none, line⟩, rest, line)
  else if c = '+' then .ok (some ⟨.Plus, "+", none, line⟩, rest, line)
  else if c = '"' || c = '\x27' then
    match scanString c rest line with
    | .error e => .error e
    | .ok (body, rest', line') =>
      .ok (some ⟨.String, String.mk (c :: body ++ [c]), some (String.mk body), line'⟩, rest', line')
  else if c.isDigit then
    let (t, r) := scanNumber c rest line
    .ok (some t, r, line)
  else if c.isAlpha || c = '_' then
    let (t, r) := scanIdent c rest line
    .ok (some t, r, line)
  else if c.isWhitespace then
    .ok (none, rest, if c = '\n' then line + 1 else line)
  else .error ("Unexpected character: " ++ c.toString)

/-- The `Lexer::tokenize` loop.  Each iteration consumes at least one
character, so the fuel supplied by `tokenize` is always sufficient. -/
def tokenizeAux : Nat → List Char → Nat → Except String (List Token)
  | 0, _, _ => .error "Lexer fuel exhausted"
  | _ + 1, [], line => .ok [⟨.Eof, "", none, line⟩]
  | fuel + 1, c :: rest, line =>
    match scanToken c rest line with
    | .error e => .error e
    | .ok (tok?, rest', line') =>
      match tokenizeAux fuel rest' line' with
      | .error e => .error e
      | .ok toks =>
        match tok? with
        | some t => .ok (t :: toks)
        | none => .ok toks

/-- `Lexer::new(source).tokenize()`. -/
def tokenize (source : String) : Except String (List Token) :=
  tokenizeAux (source.length + 1) source.data 1

/-! ## Numeric model

`f64` values are modeled exactly: a finite value is the scaled decimal
`num / 10 ^ den10` (an exact rational; this representation avoids
normalization, so every operation is a plain integer computation), and the
keyword forms of `f64::from_str` give signed infinity and NaN.  Binary
floating-point rounding and overflow-to-infinity are not modeled. -/

/-- An exact decimal: the value `num / 10 ^ den10`. -/
structure Dec where
  num : Int
  den10 : Nat
deriving DecidableEq, Repr

inductive FV where
  | num (d : Dec)
  | inf (neg : Bool)
  | nan
deriving DecidableEq, Repr

/-- `<` on `f64` values (comparisons with NaN are false; finite values
compare as exact rationals, by cross-multiplication). -/
def fvLt : FV → FV → Bool
  | .nan, _ => false
  | _, .nan => false
  | .num a, .num b => decide (a.num * (10 : Int) ^ b.den10 < b.num * (10 : Int) ^ a.den10)
  | .num _, .inf n => !n
  | .inf n, .num _ => n
  | .inf a, .inf b => a && !b

def fvEq : FV → FV → Bool
  | .num a, .num b => decide (a.num * (10 : Int) ^ b.den10 = b.num * (10 : Int) ^ a.den10)
  | .inf a, .inf b => a == b
  | _, _ => false

def fvLe (a b : FV) : Bool := fvLt a b || fvEq a b

def fvGt (a b : FV) : Bool := fvLt b a

def fvGe (a b : FV) : Bool := fvLe b a

def digitsToNat (ds : List Char) : Nat :=
  ds.foldl (fun acc c => acc * 10 + (c.toNat - 48)) 0

def parseSign : List Char → Bool × List Char
  | '-' :: rest => (true, rest)
  | '+' :: rest => (false, rest)
  | cs => (false, cs)

/-- The accepted language and value of Rust's `f64::from_str`:
`Sign? ( inf | infinity | nan | Number )` with
`Number ::= Digit+ (. Digit*)? Exp? | . Digit+ Exp?` and
`Exp ::= (e|E) Sign? Digit+`, keywords case-insensitive. -/
def parseF64 (s : String) : Option FV :=
  let (neg, cs) := parseSign s.data
  let low := cs.map Char.toLower
  if low = "inf".data || low = "infinity".data then some (.inf neg)
  else if low = "nan".data then some .nan
  else
    let d1 := cs.takeWhile Char.isDigit
    let r1 := cs.drop d1.length
    let (hasDot, d2, r2) :=
      match r1 with
      | '.' :: rest =>
        (true, rest.takeWhile Char.isDigit, rest.drop (rest.takeWhile Char.isDigit).length)
      | _ => (false, [], r1)
    if d1 = [] ∧ ¬(hasDot ∧ d2 ≠ []) then none
    else
      let m : Int := digitsToNat (d1 ++ d2)
      let m : Int := if neg then -m else m
      match r2 with
      | 'e' :: rest | 'E' :: rest =>
        let (eneg, rest') := parseSign rest
        let ed := rest'.takeWhile Char.isDigit
        if ed = [] ∨ rest'.drop ed.length ≠ [] then none
        else if eneg then some (.num ⟨m, d2.length + digitsToNat ed⟩)
        else some (.num ⟨m * (10 : Int) ^ digitsToNat ed, d2.length⟩)
      | [] => some (.num ⟨m, d2.length⟩)
      | _ => none

/-- `s.parse::<f64>().unwrap_or(0.0)` from `Executor::evaluate_condition`. -/
def parseOr0 (s : String) : FV := (parseF64 s).getD (.num ⟨0, 0⟩)

/-- An `f64` value cast `as u32` (truncation toward zero, saturating, as
in `Parser::parse_step`; only small nonnegative integer literals occur as
step ids). -/
def qToU32 (d : Dec) : Nat :=
  if d.num ≤ 0 then 0 else min (d.num.toNat / 10 ^ d.den10) 4294967295

/-- Drop trailing decimal zeros: `(n, k)` with value `n / 10 ^ k`. -/
def stripZeros : Nat → Nat → Nat × Nat
  | n, 0 => (n, 0)
  | n, k + 1 => if n % 10 = 0 then stripZeros (n / 10) k else (n, k + 1)

def padLeftZeros (s : String) (k : Nat) : String :=
  String.mk (List.replicate (k - s.length) '0') ++ s

def numToStringNN (n k : Nat) : String :=
  match stripZeros n k with
  | (n', 0) => toString n'
  | (n', k') => toString (n' / 10 ^ k') ++ "." ++ padLeftZeros (toString (n' % 10 ^ k')) k'

/-- `value.to_string()` for a `NumberLiteral` in `evaluate_expression`
(Rust prints the shortest round-tripping decimal; for the exact decimal
values this interpreter parses that is the value's own trimmed decimal
expansion). -/
def numToString (d : Dec) : String :=
  if d.num < 0 then "-" ++ numToStringNN d.num.natAbs d.den10
  else numToStringNN d.num.toNat d.den10

/-! ## AST (`ast.rs`) -/

inductive Expression where
  | StringLiteral (value : String)
  | NumberLiteral (value : Dec)
  | Identifier (name : String)
  | BinaryExpression (left : Expression) (operator : String) (right : Expression)
  | PropertyAccess (object : Expression) (property : String)
  | StepReference (step_id : Nat) (property : Option String)
deriving DecidableEq, Repr

structure Command where
  name : String
  arguments : List Expression
deriving DecidableEq, Repr

mutual
inductive Step where
  | mk (id : Nat) (content : StepContent)

inductive StepContent where
  | Command (c : Command)
  | Conditional (c : ConditionalStatement)

inductive ConditionalStatement where
  | mk (condition : Expression) (if_steps : List Step) (else_steps : Option (List Step))
end

def Step.id : Step → Nat
  | .mk i _ => i

def Step.content : Step → StepContent
  | .mk _ c => c

def ConditionalStatement.condition : ConditionalStatement → Expression
  | .mk c _ _ => c

def ConditionalStatement.if_steps : ConditionalStatement → List Step
  | .mk _ s _ => s

def ConditionalStatement.else_steps : ConditionalStatement → Option (List Step)
  | .mk _ _ e => e

structure VariableDeclaration where
  keyword : String
  name : String
  value : Expression
deriving DecidableEq, Repr

/-- `ast.rs` declares `Workflow { name, steps }`; `executor.rs`
(`execute_workflow`) additionally iterates `workflow.variables`, so the
embedding carries that field too.  The parser always constructs it empty. -/
structure Workflow where
  name : String
  «variables» : List VariableDeclaration
  steps : List Step

structure Program where
  workflows : List Workflow
  «variables» : List VariableDeclaration

/-! ## Parser (`parser.rs`)

Each parse function consumes a prefix of the token list and returns the
remaining suffix (`self.current` in the Rust code is the length of the
consumed prefix).  Rust `while` loops and the mutual recursion between
steps and conditionals become fuel-indexed recursion; `parse` supplies
fuel that every real token list stays well within. -/

/-- `Parser::is_at_end`. -/
def isAtEnd : List Token → Bool
  | [] => true
  | t :: _ => t.token_type == .Eof

/-- `Parser::check`. -/
def check (tt : TokenType) : List Token → Bool
  | [] => false
  | t :: _ => t.token_type != .Eof && t.token_type == tt

/-- `Parser::consume`. -/
def consume (tt : TokenType) (msg : String) (toks : List Token) :
    Except String (Token × List Token) :=
  match toks with
  | t :: rest => if check tt (t :: rest) then .ok (t, rest) else .error msg
  | [] => .error msg

/-- `Parser::consume_string`. -/
def consumeString (msg : String) (toks : List Token) : Except String (String × List Token) :=
  match consume .String msg toks with
  | .error e => .error e
  | .ok (t, rest) => .ok (t.literal.getD "", rest)

/-- `Parser::consume_number`: consume a Number token and parse its lexeme
as an `f64` (number lexemes are plain decimals, hence finite). -/
def consumeNumber (msg : String) (toks : List Token) : Except String (Dec × List Token) :=
  match consume .Number msg toks with
  | .error e => .error e
  | .ok (t, rest) =>
    match parseF64 t.lexeme with
    | some (.num q) => .ok (q, rest)
    | _ => .error msg

/-- `Parser::consume_identifier`. -/
def consumeIdentifier (msg : String) (toks : List Token) : Except String (String × List Token) :=
  match consume .Identifier msg toks with
  | .error e => .error e
  | .ok (t, rest) => .ok (t.lexeme, rest)

/-- `Parser::parse_primary`. -/
def parsePrimary (toks : List Token) : Except String (Expression × List Token) :=
  match toks with
  | [] => .error "Expected expression"
  | t :: rest =>
    match t.token_type with
    | .String => .ok (.StringLiteral (t.literal.getD ""), rest)
    | .Number =>
      match parseF64 t.lexeme with
      | some (.num q) => .ok (.NumberLiteral q, rest)
      | _ => .error "Invalid number"
    | .Identifier =>
      if check .Dot rest then
        match rest with
        | _ :: rest2 =>
          match consumeIdentifier "Expected property name" rest2 with
          | .error e => .error e
          | .ok (property, rest3) =>
            .ok (.PropertyAccess (.Identifier t.lexeme) property, rest3)
        | [] => .error "Expected property name"
      else .ok (.Identifier t.lexeme, rest)
    | .Step =>
      match consumeNumber "Expected step number" rest with
      | .error e => .error e
      | .ok (q, rest2) =>
        let step_id := qToU32 q
        if check .Dot rest2 then
          match rest2 with
          | _ :: rest3 =>
            match consumeIdentifier "Expected property name" rest3 with
            | .error e => .error e
            | .ok (property, rest4) => .ok (.StepReference step_id (some property), rest4)
          | [] => .error "Expected property name"
        else .ok (.StepReference step_id none, rest2)
    | _ => .error "Expected expression"

/-- The operator set of `Parser::parse_binary_expression`'s `match_token`. -/
def isBinOp : TokenType → Bool
  | .Plus | .EqualEqual | .NotEqual | .Greater | .Less | .GreaterEqual | .LessEqual => true
  | _ => false

/-- `match_token` over the binary-operator set (never matches Eof, so the
`is_at_end` guard inside `check` is subsumed by `isBinOp`). -/
def matchBinOp : List Token → Option (Token × List Token)
  | [] => none
  | t :: rest => if isBinOp t.token_type then some (t, rest) else none

/-- The `while self.match_token(...)` loop of `parse_binary_expression`. -/
def binLoop : Nat → Expression → List Token → Except String (Expression × List Token)
  | 0, _, _ => .error "Parser fuel exhausted"
  | fuel + 1, left, toks =>
    match matchBinOp toks with
    | none => .ok (left, toks)
    | some (opTok, rest) =>
      match parsePrimary rest with
      | .error e => .error e
      | .ok (right, rest') =>
        binLoop fuel (.BinaryExpression left opTok.lexeme right) rest'

/-- `Parser::parse_binary_expression`. -/
def parseBinaryExpression (fuel : Nat) (toks : List Token) :
    Except String (Expression × List Token) :=
  match parsePrimary toks with
  | .error e => .error e
  | .ok (left, rest) => binLoop fuel left rest

/-- `Parser::parse_expression`. -/
def parseExpression (fuel : Nat) (toks : List Token) : Except String (Expression × List Token) :=
  parseBinaryExpression fuel toks

/-- The comma-separated loop of `Parser::parse_expression_list`. -/
def parseExpressionListLoop : Nat → List Token → Except String (List Expression × List Token)
  | 0, _ => .error "Parser fuel exhausted"
  | fuel + 1, toks =>
    match parseExpression (fuel + 1) toks with
    | .error e => .error e
    | .ok (e, toks') =>
      if check .Comma toks' then
        match toks' with
        | _ :: toks'' =>
          match parseExpressionListLoop fuel toks'' with
          | .error err => .error err
          | .ok (es, rest) => .ok (e :: es, rest)
        | [] => .ok ([e], toks')
      else .ok ([e], toks')

/-- `Parser::parse_expression_list`. -/
def parseExpressionList (fuel : Nat) (toks : List Token) :
    Except String (List Expression × List Token) :=
  if check .RightParen toks then .ok ([], toks)
  else parseExpressionListLoop fuel toks

/-- `Parser::parse_command`. -/
def parseCommand (fuel : Nat) (toks : List Token) : Except String (Command × List Token) :=
  match consumeIdentifier "Expected command name" toks with
  | .error e => .error e
  | .ok (name, toks1) =>
    if check .LeftParen toks1 then
      match consume .LeftParen "Expected \x27(\x27" toks1 with
      | .error e => .error e
      | .ok (_, toks2) =>
        match parseExpressionList fuel toks2 with
        | .error e => .error e
        | .ok (args, toks3) =>
          match consume .RightParen "Expected \x27)\x27" toks3 with
          | .error e => .error e
          | .ok (_, toks4) => .ok (⟨name, args⟩, toks4)
    else .ok (⟨name, []⟩, toks1)

/-- `Parser::parse_variable_declaration`. -/
def parseVariableDeclaration (fuel : Nat) (toks : List Token) :
    Except String (VariableDeclaration × List Token) :=
  match toks with
  | [] => .error "Expected variable declaration keyword"
  | t :: rest =>
    let kw? : Option String :=
      match t.token_type with
      | .Let => some "let"
      | .Var => some "var"
      | .Const => some "const"
      | _ => none
    match kw? with
    | none => .error "Expected variable declaration keyword"
    | some keyword =>
      match consumeIdentifier "Expected variable name" rest with
      | .error e => .error e
      | .ok (name, toks1) =>
        match consume .Equal "Expected \x27=\x27 after variable name" toks1 with
        | .error e => .error e
        | .ok (_, toks2) =>
          match parseExpression fuel toks2 with
          | .error e => .error e
          | .ok (value, toks3) => .ok (⟨keyword, name, value⟩, toks3)

mutual
/-- `Parser::parse_step`. -/
def parseStep : Nat → List Token → Except String (Step × List Token)
  | 0, _ => .error "Parser fuel exhausted"
  | fuel + 1, toks =>
    match consume .Step "Expected \x27step\x27" toks with
    | .error e => .error e
    | .ok (_, toks1) =>
      match consumeNumber "Expected step number" toks1 with
      | .error e => .error e
      | .ok (q, toks2) =>
        let id := qToU32 q
        match consume .Colon "Expected \x27:\x27 after step number" toks2 with
        | .error e => .error e
        | .ok (_, toks3) =>
          if check .If toks3 then
            match parseConditional fuel toks3 with
            | .error e => .error e
            | .ok (c, toks4) => .ok (⟨id, .Conditional c⟩, toks4)
          else
            match parseCommand fuel toks3 with
            | .error e => .error e
            | .ok (cmd, toks4) => .ok (⟨id, .Command cmd⟩, toks4)

/-- The `while !check(RightBrace) && !is_at_end` step loops of
`parse_workflow` and `parse_conditional_statement`. -/
def parseStepsUntilBrace : Nat → List Token → Except String (List Step × List Token)
  | 0, _ => .error "Parser fuel exhausted"
  | fuel + 1, toks =>
    if !(check .RightBrace toks) && !(isAtEnd toks) then
      match parseStep fuel toks with
      | .error e => .error e
      | .ok (s, toks') =>
        match parseStepsUntilBrace fuel toks' with
        | .error e => .error e
        | .ok (ss, toks'') => .ok (s :: ss, toks'')
    else .ok ([], toks)

/-- `Parser::parse_conditional_statement`. -/
def parseConditional : Nat → List Token → Except String (ConditionalStatement × List Token)
  | 0, _ => .error "Parser fuel exhausted"
  | fuel + 1, toks =>
    match consume .If "Expected \x27if\x27" toks with
    | .error e => .error e
    | .ok (_, toks1) =>
      match consume .LeftParen "Expected \x27(\x27 after \x27if\x27" toks1 with
      | .error e => .error e
      | .ok (_, toks2) =>
        match parseExpression (fuel + 1) toks2 with
        | .error e => .error e
        | .ok (condition, toks3) =>
          match consume .RightParen "Expected \x27)\x27 after condition" toks3 with
          | .error e => .error e
          | .ok (_, toks4) =>
            match consume .LeftBrace "Expected \x27\x7b\x27 after condition" toks4 with
            | .error e => .error e
            | .ok (_, toks5) =>
              match parseStepsUntilBrace fuel toks5 with
              | .error e => .error e
              | .ok (if_steps, toks6) =>
                match consume .RightBrace "Expected \x27\x7d\x27 after if block" toks6 with
                | .error e => .error e
                | .ok (_, toks7) =>
                  if check .Else toks7 then
                    match toks7 with
                    | _ :: toks8 =>
                      match consume .LeftBrace "Expected \x27\x7b\x27 after \x27else\x27" toks8 with
                      | .error e => .error e
                      | .ok (_, toks9) =>
                        match parseStepsUntilBrace fuel toks9 with
                        | .error e => .error e
                        | .ok (else_steps, toks10) =>
                          match consume .RightBrace "Expected \x27\x7d\x27 after else block" toks10 with
                          | .error e => .error e
                          | .ok (_, toks11) =>
                            .ok (⟨condition, if_steps, some else_steps⟩, toks11)
                    | [] => .ok (⟨condition, if_steps, none⟩, toks7)
                  else .ok (⟨condition, if_steps, none⟩, toks7)
end

/-- `Parser::parse_workflow`. -/
def parseWorkflow (fuel : Nat) (toks : List Token) : Except String (Workflow × List Token) :=
  match consume .Workflow "Expected \x27workflow\x27" toks with
  | .error e => .error e
  | .ok (_, toks1) =>
    match consumeString "Expected workflow name" toks1 with
    | .error e => .error e
    | .ok (name, toks2) =>
      match consume .LeftBrace "Expected \x27\x7b\x27 after workflow name" toks2 with
      | .error e => .error e
      | .ok (_, toks3) =>
        match parseStepsUntilBrace fuel toks3 with
        | .error e => .error e
        | .ok (steps, toks4) =>
          match consume .RightBrace "Expected \x27\x7d\x27 after workflow body" toks4 with
          | .error e => .error e
          | .ok (_, toks5) => .ok (⟨name, [], steps⟩, toks5)

/-- The `while !is_at_end` loop of `Parser::parse`, pushing workflows and
variable declarations into their respective vectors. -/
def parseAux : Nat → List Token → List Workflow → List VariableDeclaration →
    Except String Program
  | 0, _, _, _ => .error "Parser fuel exhausted"
  | fuel + 1, toks, ws, vs =>
    if isAtEnd toks then .ok ⟨ws.reverse, vs.reverse⟩
    else
      match toks with
      | [] => .ok ⟨ws.reverse, vs.reverse⟩
      | t :: _ =>
        match t.token_type with
        | .Workflow =>
          match parseWorkflow (fuel + 1) toks with
          | .error e => .error e
          | .ok (w, toks') => parseAux fuel toks' (w :: ws) vs
        | .Let | .Var | .Const =>
          match parseVariableDeclaration (fuel + 1) toks with
          | .error e => .error e
          | .ok (v, toks') => parseAux fuel toks' ws (v :: vs)
        | _ => .error "Expected workflow or variable declaration"

/-- `Parser::new(tokens).parse()`. -/
def parse (tokens : List Token) : Except String Program :=
  parseAux (4 * tokens.length + 8) tokens [] []

/-! ## Executor (`executor.rs`)

The executor's mutable state (`variables`, `step_results`, plus the stdout
of the `println!` trace) is threaded explicitly.  A stateful operation
returns the updated state and `some errorMessage` when the Rust function
returns `Err` (the `?` operator halts the caller), `none` when it returns
`Ok(())`; on an error the state already mutated survives, exactly as the
fields of the Rust `Executor` do. -/

structure StepResult where
  success : Bool
  data : String
  status : Nat
  message : String
deriving DecidableEq, Repr

structure ExecState where
  «variables» : List (String × String)
  step_results : List (Nat × StepResult)
  output : List String
deriving DecidableEq, Repr

/-- `Executor::new()` (the empty trace stands for the empty stdout). -/
def newState : ExecState := ⟨[], [], []⟩

/-- One `println!` line. -/
def pushOut (st : ExecState) (line : String) : ExecState :=
  { st with output := st.output ++ [line] }

/-- `self.step_results.insert(step_id, r)`. -/
def insertResult (st : ExecState) (step_id : Nat) (r : StepResult) : ExecState :=
  { st with step_results := (step_id, r) :: st.step_results }

/-- `Executor::evaluate_expression` (reads `self.variables` and
`self.step_results` only). -/
def evaluateExpression (vars : List (String × String))
    (results : List (Nat × StepResult)) : Expression → Except String String
  | .StringLiteral value => .ok value
  | .NumberLiteral value => .ok (numToString value)
  | .Identifier name =>
    match vars.lookup name with
    | some v => .ok v
    | none => .error ("Undefined variable: " ++ name)
  | .BinaryExpression left operator right =>
    match evaluateExpression vars results left with
    | .error e => .error e
    | .ok left_val =>
      match evaluateExpression vars results right with
      | .error e => .error e
      | .ok right_val =>
        if operator = "+" then .ok (left_val ++ right_val)
        else .error ("Unknown binary operator: " ++ operator)
  | .PropertyAccess object property =>
    match evaluateExpression vars results object with
    | .error e => .error e
    | .ok object_val => .ok (object_val ++ "." ++ property)
  | .StepReference step_id property =>
    match results.lookup step_id with
    | some result =>
      match property with
      | some "status" => .ok (toString result.status)
      | some "data" => .ok result.data
      | some "message" => .ok result.message
      | some "success" => .ok (toString result.success)
      | _ => .ok result.data
    | none => .error ("Step " ++ toString step_id ++ " not found")

/-- The argument evaluation in `Executor::execute_command`
(`collect::<Result<Vec<String>>>`: left to right, first error wins). -/
def evalArgs (vars : List (String × String)) (results : List (Nat × StepResult)) :
    List Expression → Except String (List String)
  | [] => .ok []
  | e :: rest =>
    match evaluateExpression vars results e with
    | .error err => .error err
    | .ok v =>
      match evalArgs vars results rest with
      | .error err => .error err
      | .ok vs => .ok (v :: vs)

/-- `Executor::evaluate_condition`. -/
def evaluateCondition (vars : List (String × String))
    (results : List (Nat × StepResult)) (condition : Expression) : Except String Bool :=
  match condition with
  | .BinaryExpression left operator right =>
    match evaluateExpression vars results left with
    | .error e => .error e
    | .ok left_val =>
      match evaluateExpression vars results right with
      | .error e => .error e
      | .ok right_val =>
        if operator = "==" then .ok (left_val == right_val)
        else if operator = "!=" then .ok (left_val != right_val)
        else if operator = ">" then .ok (fvGt (parseOr0 left_val) (parseOr0 right_val))
        else if operator = "<" then .ok (fvLt (parseOr0 left_val) (parseOr0 right_val))
        else if operator = ">=" then .ok (fvGe (parseOr0 left_val) (parseOr0 right_val))
        else if operator = "<=" then .ok (fvLe (parseOr0 left_val) (parseOr0 right_val))
        else .error ("Unknown comparison operator: " ++ operator)
  | cond =>
    match evaluateExpression vars results cond with
    | .error e => .error e
    | .ok value => .ok (!value.isEmpty && value != "0" && value != "false")

/-- `Executor::execute_command`. -/
def executeCommand (st : ExecState) (step_id : Nat) (command : Command) :
    ExecState × Option String :=
  match evalArgs st.variables st.step_results command.arguments with
  | .error e => (st, some e)
  | .ok args =>
    if command.name = "print" then
      let message := String.intercalate " " args
      (insertResult (pushOut st ("    📤 Print: " ++ message)) step_id
        ⟨true, message, 200, "Print executed successfully"⟩, none)
    else if command.name = "log" then
      let message := String.intercalate " " args
      (insertResult (pushOut st ("    📝 Log: " ++ message)) step_id
        ⟨true, message, 200, "Log executed successfully"⟩, none)
    else if command.name = "fetch" then
      let url := (args.get? 0).getD "https://api.example.com"
      (insertResult (pushOut st ("    🌐 Fetch: " ++ url)) step_id
        ⟨true, "\x7b\"data\": \"Sample data from " ++ url ++ "\"\x7d", 200,
          "Fetch completed successfully"⟩, none)
    else if command.name = "send_email" then
      let toAddr := (args.get? 0).getD "user@example.com"
      let subject := (args.get? 1).getD "Notification"
      (insertResult (pushOut st ("    📧 Send Email: " ++ toAddr ++ " - " ++ subject)) step_id
        ⟨true, "Email sent to " ++ toAddr, 200, "Email sent successfully"⟩, none)
    else if command.name = "notify" then
      let message := String.intercalate " " args
      (insertResult (pushOut st ("    🔔 Notify: " ++ message)) step_id
        ⟨true, message, 200, "Notification sent successfully"⟩, none)
    else if command.name = "input" then
      let variable_name := (args.get? 0).getD "user_input"
      let input_type := (args.get? 1).getD "text"
      let placeholder := (args.get? 2).getD "Enter value"
      (insertResult
        (pushOut st ("    📝 Input: Collect \x27" ++ variable_name ++ "\x27 as " ++
          input_type ++ " (" ++ placeholder ++ ")")) step_id
        ⟨true, "\x7b\"variable\": \"" ++ variable_name ++ "\", \"type\": \"" ++ input_type ++
          "\", \"placeholder\": \"" ++ placeholder ++ "\"\x7d", 200,
          "Input collected successfully"⟩, none)
    else if command.name = "generate" then
      let prompt := (args.get? 0).getD "Generate content"
      let model := (args.get? 1).getD "mistral-small-latest"
      let temperature := (args.get? 2).getD "0.7"
      (insertResult
        (pushOut st ("    🤖 Generate: Using " ++ model ++ " (temp: " ++ temperature ++
          ") with prompt: \x27" ++ prompt ++ "\x27")) step_id
        ⟨true, "\x7b\"content\": \"Generated content for: " ++ prompt ++ "\", \"model\": \"" ++
          model ++ "\", \"temperature\": \"" ++ temperature ++ "\"\x7d", 200,
          "Content generated successfully"⟩, none)
    else if command.name = "output" then
      let data_ref := (args.get? 0).getD "data"
      let format := (args.get? 1).getD "text"
      let filename := (args.get? 2).getD "output"
      (insertResult
        (pushOut st ("    📤 Output: Export " ++ data_ref ++ " as " ++ format ++ " to " ++
          filename)) step_id
        ⟨true, "\x7b\"exported\": \"" ++ data_ref ++ "\", \"format\": \"" ++ format ++
          "\", \"file\": \"" ++ filename ++ "\"\x7d", 200,
          "Output exported successfully"⟩, none)
    else if command.name = "transform" then
      let data_ref := (args.get? 0).getD "data"
      let transformation := (args.get? 1).getD "format"
      (insertResult
        (pushOut st ("    🔄 Transform: Apply " ++ transformation ++ " to " ++ data_ref))
        step_id
        ⟨true, "\x7b\"transformed\": \"" ++ data_ref ++ "\", \"type\": \"" ++ transformation ++
          "\"\x7d", 200, "Data transformed successfully"⟩, none)
    else if command.name = "validate" then
      let data_ref := (args.get? 0).getD "data"
      let validation_type := (args.get? 1).getD "required"
      (insertResult
        (pushOut st ("    ✅ Validate: Check " ++ data_ref ++ " for " ++ validation_type))
        step_id
        ⟨true, "\x7b\"validated\": \"" ++ data_ref ++ "\", \"type\": \"" ++ validation_type ++
          "\", \"valid\": true\x7d", 200, "Validation completed successfully"⟩, none)
    else
      (insertResult (pushOut st ("    ⚠️  Unknown command: " ++ command.name)) step_id
        ⟨false, "", 400, "Unknown command: " ++ command.name⟩, none)

mutual
/-- `Executor::execute_step`. -/
def executeStep (st : ExecState) (step : Step) : ExecState × Option String :=
  match step with
  | .mk id content =>
    let st := pushOut st ("  📋 Step " ++ toString id ++ ": ")
    match content with
    | .Command command => executeCommand st id command
    | .Conditional conditional => executeConditional st conditional

/-- `Executor::execute_conditional`. -/
def executeConditional (st : ExecState) (c : ConditionalStatement) : ExecState × Option String :=
  match c with
  | .mk condition if_steps else_steps =>
    match evaluateCondition st.variables st.step_results condition with
    | .error e => (st, some e)
    | .ok condition_result =>
      if condition_result then
        executeSteps (pushOut st "    ✅ Condition is true, executing if block") if_steps
      else
        let st1 := pushOut st "    ❌ Condition is false"
        match else_steps with
        | some steps => executeSteps (pushOut st1 "    🔄 Executing else block") steps
        | none => (st1, none)

/-- The `for step in steps` loops (a `?` failure halts the loop). -/
def executeSteps (st : ExecState) : List Step → ExecState × Option String
  | [] => (st, none)
  | s :: rest =>
    match executeStep st s with
    | (st', some e) => (st', some e)
    | (st', none) => executeSteps st' rest
end

/-- `Executor::execute_variable`. -/
def executeVariable (st : ExecState) (v : VariableDeclaration) : ExecState × Option String :=
  match evaluateExpression st.variables st.step_results v.value with
  | .error e => (st, some e)
  | .ok value =>
    let st := { st with «variables» := (v.name, value) :: st.variables }
    (pushOut st ("📦 Variable \x27" ++ v.name ++ "\x27 = \x27" ++ value ++ "\x27"), none)

/-- The `for variable in variables` loops. -/
def executeVariables (st : ExecState) : List VariableDeclaration → ExecState × Option String
  | [] => (st, none)
  | v :: rest =>
    match executeVariable st v with
    | (st', some e) => (st', some e)
    | (st', none) => executeVariables st' rest

/-- `Executor::execute_workflow`. -/
def executeWorkflow (st : ExecState) (w : Workflow) : ExecState × Option String :=
  match executeVariables (pushOut st ("\n🔄 Executing workflow: " ++ w.name)) w.variables with
  | (st', some e) => (st', some e)
  | (st', none) => executeSteps st' w.steps

/-- The `for workflow in workflows` loop of `Executor::execute`. -/
def executeWorkflows (st : ExecState) : List Workflow → ExecState × Option String
  | [] => (st, none)
  | w :: rest =>
    match executeWorkflow st w with
    | (st', some e) => (st', some e)
    | (st', none) => executeWorkflows st' rest

/-- `Executor::execute`. -/
def execute (st : ExecState) (program : Program) : ExecState × Option String :=
  match executeVariables
      (pushOut (pushOut st "🚀 Executing TradeMinutes DSL Program")
        "=====================================") program.variables with
  | (st', some e) => (st', some e)
  | (st', none) => executeWorkflows st' program.workflows

/-- `lib.rs::run_dsl`: tokenize, parse, execute. -/
def run_dsl (dsl_code : String) : Except String Unit :=
  match tokenize dsl_code with
  | .error e => .error e
  | .ok tokens =>
    match parse tokens with
    | .error e => .error e
    | .ok ast =>
      match execute newState ast with
      | (_, some e) => .error e
      | (_, none) => .ok ()

/-- `lib.rs::parse_dsl`: tokenize then parse, no execution. -/
def parse_dsl (dsl_code : String) : Except String Program :=
  match tokenize dsl_code with
  | .error e => .error e
  | .ok tokens => parse tokens

/-! ## Derived definitions used by the specification claims -/

/-- The command names carried by the `match` arms of
`Executor::execute_command` (the handler table). -/
def handlerNames : List String :=
  ["print", "log", "fetch", "send_email", "notify",
   "input", "generate", "output", "transform", "validate"]

def isBinaryExpression : Expression → Bool
  | .BinaryExpression .. => true
  | _ => false

mutual
/-- Ids of the Command steps occurring in a step, including those nested
inside conditional branches. -/
def commandIdsStep : Step → List Nat
  | .mk id (.Command _) => [id]
  | .mk _ (.Conditional c) => commandIdsCond c

def commandIdsCond : ConditionalStatement → List Nat
  | .mk _ if_steps else_steps =>
    commandIdsList if_steps ++
      (match else_steps with
       | some steps => commandIdsList steps
       | none => [])

def commandIdsList : List Step → List Nat
  | [] => []
  | s :: rest => commandIdsStep s ++ commandIdsList rest
end

def commandIdsWorkflows : List Workflow → List Nat
  | [] => []
  | w :: ws => commandIdsList w.steps ++ commandIdsWorkflows ws

/-- Scenario A source (spec §8): `let a = "x"` then
`workflow "W" { step 1: print(a + "y") }`. -/
def srcA : String := "let a = \"x\"\nworkflow \"W\" \x7b step 1: print(a + \"y\") \x7d"

/-- Scenario B source (spec §8): `step 1: fetch("u")` followed by the
conditional on `step 1.status`. -/
def srcB : String :=
  "step 1: fetch(\"u\")\nif (step 1.status == 200) \x7b step 2: print(\"ok\") \x7d else \x7b step 3: print(\"bad\") \x7d"

/-- The spec §8 unterminated-string source:
`workflow "W" { step 1: print("x }`. -/
def srcC : String := "workflow \"W\" \x7b step 1: print(\"x \x7d"

/-- A Scenario-C style program: step 1 completes, step 2 references the
never-executed step 9, step 3 never runs. -/
def progC : Program :=
  ⟨[⟨"W", [], [
      ⟨1, .Command ⟨"print", [.StringLiteral "a"]⟩⟩,
      ⟨2, .Command ⟨"print", [.StepReference 9 (some "data")]⟩⟩,
      ⟨3, .Command ⟨"print", [.StringLiteral "c"]⟩⟩]⟩], []⟩

/-! ## Helper lemmas -/

theorem pushOut_variables (st : ExecState) (l : String) :
    (pushOut st l).variables = st.variables := rfl

theorem pushOut_results (st : ExecState) (l : String) :
    (pushOut st l).step_results = st.step_results := rfl

theorem lookup_cons_ne {α β : Type} [BEq α] [LawfulBEq α] {k a : α} (h : k ≠ a) (v : β)
    (l : List (α × β)) : List.lookup k ((a, v) :: l) = List.lookup k l := by
  have hb : (k == a) = false := beq_eq_false_iff_ne.mpr h
  simp [List.lookup, hb]

/-- `execute_command` never touches a table entry for a different step id:
every path either fails before dispatch (table unchanged) or prepends one
entry keyed by the executed step's id. -/
theorem executeCommand_lookup_ne (st : ExecState) (id : Nat) (c : Command) (k : Nat)
    (hk : k ≠ id) :
    ((executeCommand st id c).1.step_results.lookup k) = st.step_results.lookup k := by
  unfold executeCommand
  split
  · rfl
  · by_cases h1 : c.name = "print"
    · simp [h1, insertResult, pushOut, lookup_cons_ne hk]
    by_cases h2 : c.name = "log"
    · simp [h1, h2, insertResult, pushOut, lookup_cons_ne hk]
    by_cases h3 : c.name = "fetch"
    · simp [h1, h2, h3, insertResult, pushOut, lookup_cons_ne hk]
    by_cases h4 : c.name = "send_email"
    · simp [h1, h2, h3, h4, insertResult, pushOut, lookup_cons_ne hk]
    by_cases h5 : c.name = "notify"
    · simp [h1, h2, h3, h4, h5, insertResult, pushOut, lookup_cons_ne hk]
    by_cases h6 : c.name = "input"
    · simp [h1, h2, h3, h4, h5, h6, insertResult, pushOut, lookup_cons_ne hk]
    by_cases h7 : c.name = "generate"
    · simp [h1, h2, h3, h4, h5, h6, h7, insertResult, pushOut, lookup_cons_ne hk]
    by_cases h8 : c.name = "output"
    · simp [h1, h2, h3, h4, h5, h6, h7, h8, insertResult, pushOut, lookup_cons_ne hk]
    by_cases h9 : c.name = "transform"
    · simp [h1, h2, h3, h4, h5, h6, h7, h8, h9, insertResult, pushOut, lookup_cons_ne hk]
    by_cases h10 : c.name = "validate"
    · simp [h1, h2, h3, h4, h5, h6, h7, h8, h9, h10, insertResult, pushOut, lookup_cons_ne hk]
    simp [h1, h2, h3, h4, h5, h6, h7, h8, h9, h10, insertResult, pushOut, lookup_cons_ne hk]

/-- Every entry of the table after `execute_command` was already present or
is keyed by the executed step's id. -/
theorem executeCommand_mem (st : ExecState) (id : Nat) (c : Command)
    (p : Nat × StepResult) (hp : p ∈ (executeCommand st id c).1.step_results) :
    p ∈ st.step_results ∨ p.1 = id := by
  unfold executeCommand at hp
  split at hp
  · exact .inl hp
  · by_cases g1 : c.name = "print"
    · simp [g1, insertResult, pushOut] at hp
      rcases hp with h | h
      · exact .inr (by rw [h])
      · exact .inl h
    by_cases g2 : c.name = "log"
    · simp [g1, g2, insertResult, pushOut] at hp
      rcases hp with h | h
      · exact .inr (by rw [h])
      · exact .inl h
    by_cases g3 : c.name = "fetch"
    · simp [g1, g2, g3, insertResult, pushOut] at hp
      rcases hp with h | h
      · exact .inr (by rw [h])
      · exact .inl h
    by_cases g4 : c.name = "send_email"
    · simp [g1, g2, g3, g4, insertResult, pushOut] at hp
      rcases hp with h | h
      · exact .inr (by rw [h])
      · exact .inl h
    by_cases g5 : c.name = "notify"
    · simp [g1, g2, g3, g4, g5, insertResult, pushOut] at hp
      rcases hp with h | h
      · exact .inr (by rw [h])
      · exact .inl h
    by_cases g6 : c.name = "input"
    · simp [g1, g2, g3, g4, g5, g6, insertResult, pushOut] at hp
      rcases hp with h | h
      · exact .inr (by rw [h])
      · exact .inl h
    by_cases g7 : c.name = "generate"
    · simp [g1, g2, g3, g4, g5, g6, g7, insertResult, pushOut] at hp
      rcases hp with h | h
      · exact .inr (by rw [h])
      · exact .inl h
    by_cases g8 : c.name = "output"
    · simp [g1, g2, g3, g4, g5, g6, g7, g8, insertResult, pushOut] at hp
      rcases hp with h | h
      · exact .inr (by rw [h])
      · exact .inl h
    by_cases g9 : c.name = "transform"
    · simp [g1, g2, g3, g4, g5, g6, g7, g8, g9, insertResult, pushOut] at hp
      rcases hp with h | h
      · exact .inr (by rw [h])
      · exact .inl h
    by_cases g10 : c.name = "validate"
    · simp [g1, g2, g3, g4, g5, g6, g7, g8, g9, g10, insertResult, pushOut] at hp
      rcases hp with h | h
      · exact .inr (by rw [h])
      · exact .inl h
    simp [g1, g2, g3, g4, g5, g6, g7, g8, g9, g10, insertResult, pushOut] at hp
    rcases hp with h | h
    · exact .inr (by rw [h])
    · exact .inl h

/-- Reduction equations for the executor, used in place of definitional
unfolding (the mutual recursion is compiled by well-founded recursion). -/
theorem executeStep_command (st : ExecState) (i : Nat) (c : Command) :
    executeStep st (.mk i (.Command c)) =
      executeCommand (pushOut st ("  📋 Step " ++ toString i ++ ": ")) i c := by
  unfold executeStep
  rfl

theorem executeStep_conditional (st : ExecState) (i : Nat) (c : ConditionalStatement) :
    executeStep st (.mk i (.Conditional c)) =
      executeConditional (pushOut st ("  📋 Step " ++ toString i ++ ": ")) c := by
  unfold executeStep
  rfl

theorem executeConditional_error (st : ExecState) (cond : Expression) (ifs : List Step)
    (els : Option (List Step)) (e : String)
    (heq : evaluateCondition st.variables st.step_results cond = .error e) :
    executeConditional st (.mk cond ifs els) = (st, some e) := by
  unfold executeConditional
  rw [heq]

theorem executeConditional_true (st : ExecState) (cond : Expression) (ifs : List Step)
    (els : Option (List Step))
    (heq : evaluateCondition st.variables st.step_results cond = .ok true) :
    executeConditional st (.mk cond ifs els) =
      executeSteps (pushOut st "    ✅ Condition is true, executing if block") ifs := by
  unfold executeConditional
  rw [heq]
  rfl

theorem executeConditional_false_some (st : ExecState) (cond : Expression) (ifs : List Step)
    (steps : List Step)
    (heq : evaluateCondition st.variables st.step_results cond = .ok false) :
    executeConditional st (.mk cond ifs (some steps)) =
      executeSteps (pushOut (pushOut st "    ❌ Condition is false")
        "    🔄 Executing else block") steps := by
  unfold executeConditional
  rw [heq]
  rfl

theorem executeConditional_false_none (st : ExecState) (cond : Expression) (ifs : List Step)
    (heq : evaluateCondition st.variables st.step_results cond = .ok false) :
    executeConditional st (.mk cond ifs none) =
      (pushOut st "    ❌ Condition is false", none) := by
  unfold executeConditional
  rw [heq]
  rfl

theorem executeSteps_nil (st : ExecState) : executeSteps st [] = (st, none) := by
  unfold executeSteps
  rfl

theorem executeSteps_cons_error (st st' : ExecState) (s : Step) (rest : List Step) (e : String)
    (heq : executeStep st s = (st', some e)) :
    executeSteps st (s :: rest) = (st', some e) := by
  unfold executeSteps
  rw [heq]

theorem executeSteps_cons_ok (st st' : ExecState) (s : Step) (rest : List Step)
    (heq : executeStep st s = (st', none)) :
    executeSteps st (s :: rest) = executeSteps st' rest := by
  conv_lhs => unfold executeSteps
  rw [heq]

theorem commandIdsStep_command (i : Nat) (c : Command) :
    commandIdsStep (.mk i (.Command c)) = [i] := by
  unfold commandIdsStep
  rfl

theorem commandIdsStep_conditional (i : Nat) (c : ConditionalStatement) :
    commandIdsStep (.mk i (.Conditional c)) = commandIdsCond c := by
  unfold commandIdsStep
  rfl

theorem commandIdsCond_eq (cond : Expression) (ifs : List Step) (els : Option (List Step)) :
    commandIdsCond (.mk cond ifs els) =
      commandIdsList ifs ++
        (match els with
         | some steps => commandIdsList steps
         | none => []) := by
  unfold commandIdsCond
  rfl

theorem commandIdsCond_some (cond : Expression) (ifs steps : List Step) :
    commandIdsCond (.mk cond ifs (some steps)) =
      commandIdsList ifs ++ commandIdsList steps := by
  rw [commandIdsCond_eq]

theorem commandIdsList_nil : commandIdsList [] = ([] : List Nat) := by
  unfold commandIdsList
  rfl

theorem commandIdsList_cons (s : Step) (rest : List Step) :
    commandIdsList (s :: rest) = commandIdsStep s ++ commandIdsList rest := by
  conv_lhs => unfold commandIdsList

/-- Joint lookup-preservation invariant, by the functional induction
principle of the mutually recursive executor: running a step, a
conditional or a step list leaves the table entry of every id outside the
executed fragment's (nested) Command ids unchanged. -/
theorem exec_lookup_all (k : Nat) :
    (∀ (st : ExecState) (s : Step), k ∉ commandIdsStep s →
      ((executeStep st s).1.step_results.lookup k) = st.step_results.lookup k) ∧
    (∀ (st : ExecState) (c : ConditionalStatement), k ∉ commandIdsCond c →
      ((executeConditional st c).1.step_results.lookup k) = st.step_results.lookup k) ∧
    (∀ (st : ExecState) (steps : List Step), k ∉ commandIdsList steps →
      ((executeSteps st steps).1.step_results.lookup k) = st.step_results.lookup k) := by
  have p1 : ∀ (st : ExecState) (i : Nat) (command : Command),
      k ∉ commandIdsStep (.mk i (.Command command)) →
      ((executeStep st (.mk i (.Command command))).1.step_results.lookup k) =
        st.step_results.lookup k := by
    intro st i command hk
    rw [commandIdsStep_command] at hk
    simp only [List.mem_singleton] at hk
    rw [executeStep_command]
    rw [executeCommand_lookup_ne _ _ _ _ hk]
    rfl
  have p2 : ∀ (st : ExecState) (i : Nat) (conditional : ConditionalStatement),
      (k ∉ commandIdsCond conditional →
        ((executeConditional (pushOut st ("  📋 Step " ++ toString i ++ ": "))
            conditional).1.step_results.lookup k) =
          (pushOut st ("  📋 Step " ++ toString i ++ ": ")).step_results.lookup k) →
      k ∉ commandIdsStep (.mk i (.Conditional conditional)) →
      ((executeStep st (.mk i (.Conditional conditional))).1.step_results.lookup k) =
        st.step_results.lookup k := by
    intro st i conditional ih hk
    rw [commandIdsStep_conditional] at hk
    rw [executeStep_conditional]
    exact ih hk
  have p3 : ∀ (st : ExecState) (c : Expression) (if_steps : List Step)
      (else_steps : Option (List Step)) (e : String),
      evaluateCondition st.variables st.step_results c = .error e →
      k ∉ commandIdsCond (.mk c if_steps else_steps) →
      ((executeConditional st (.mk c if_steps else_steps)).1.step_results.lookup k) =
        st.step_results.lookup k := by
    intro st c if_steps else_steps e heq hk
    rw [executeConditional_error _ _ _ _ _ heq]
  have p4 : ∀ (st : ExecState) (c : Expression) (if_steps : List Step)
      (else_steps : Option (List Step)),
      evaluateCondition st.variables st.step_results c = .ok true →
      (k ∉ commandIdsList if_steps →
        ((executeSteps (pushOut st "    ✅ Condition is true, executing if block")
            if_steps).1.step_results.lookup k) =
          (pushOut st "    ✅ Condition is true, executing if block").step_results.lookup k) →
      k ∉ commandIdsCond (.mk c if_steps else_steps) →
      ((executeConditional st (.mk c if_steps else_steps)).1.step_results.lookup k) =
        st.step_results.lookup k := by
    intro st c if_steps else_steps heq ih hk
    rw [commandIdsCond_eq] at hk
    simp only [List.mem_append, not_or] at hk
    rw [executeConditional_true _ _ _ _ heq]
    exact ih hk.1
  have p5 : ∀ (st : ExecState) (c : Expression) (if_steps : List Step)
      (condition_result : Bool),
      evaluateCondition st.variables st.step_results c = .ok condition_result →
      ¬condition_result = true →
      ∀ (steps : List Step),
      (k ∉ commandIdsList steps →
        ((executeSteps (pushOut (pushOut st "    ❌ Condition is false")
            "    🔄 Executing else block") steps).1.step_results.lookup k) =
          (pushOut (pushOut st "    ❌ Condition is false")
            "    🔄 Executing else block").step_results.lookup k) →
      k ∉ commandIdsCond (.mk c if_steps (some steps)) →
      ((executeConditional st (.mk c if_steps (some steps))).1.step_results.lookup k) =
        st.step_results.lookup k := by
    intro st c if_steps condition_result heq hcr steps ih hk
    rw [commandIdsCond_some] at hk
    simp only [List.mem_append, not_or] at hk
    simp only [Bool.not_eq_true] at hcr
    subst hcr
    rw [executeConditional_false_some _ _ _ _ heq]
    exact ih hk.2
  have p6 : ∀ (st : ExecState) (c : Expression) (if_steps : List Step)
      (condition_result : Bool),
      evaluateCondition st.variables st.step_results c = .ok condition_result →
      ¬condition_result = true →
      k ∉ commandIdsCond (.mk c if_steps none) →
      ((executeConditional st (.mk c if_steps none)).1.step_results.lookup k) =
        st.step_results.lookup k := by
    intro st c if_steps condition_result heq hcr hk
    simp only [Bool.not_eq_true] at hcr
    subst hcr
    rw [executeConditional_false_none _ _ _ heq]
    rfl
  have p7 : ∀ (st : ExecState), k ∉ commandIdsList [] →
      ((executeSteps st []).1.step_results.lookup k) = st.step_results.lookup k := by
    intro st _
    rw [executeSteps_nil]
  have p8 : ∀ (st : ExecState) (s : Step) (rest : List Step) (st' : ExecState) (e : String),
      executeStep st s = (st', some e) →
      (k ∉ commandIdsStep s →
        ((executeStep st s).1.step_results.lookup k) = st.step_results.lookup k) →
      k ∉ commandIdsList (s :: rest) →
      ((executeSteps st (s :: rest)).1.step_results.lookup k) = st.step_results.lookup k := by
    intro st s rest st' e heq ih hk
    rw [commandIdsList_cons] at hk
    simp only [List.mem_append, not_or] at hk
    have h1 := ih hk.1
    rw [heq] at h1
    rw [executeSteps_cons_error _ _ _ _ _ heq]
    exact h1
  have p9 : ∀ (st : ExecState) (s : Step) (rest : List Step) (st' : ExecState),
      executeStep st s = (st', none) →
      (k ∉ commandIdsStep s →
        ((executeStep st s).1.step_results.lookup k) = st.step_results.lookup k) →
      (k ∉ commandIdsList rest →
        ((executeSteps st' rest).1.step_results.lookup k) = st'.step_results.lookup k) →
      k ∉ commandIdsList (s :: rest) →
      ((executeSteps st (s :: rest)).1.step_results.lookup k) = st.step_results.lookup k := by
    intro st s rest st' heq ih1 ih2 hk
    rw [commandIdsList_cons] at hk
    simp only [List.mem_append, not_or] at hk
    have h1 := ih1 hk.1
    rw [heq] at h1
    rw [executeSteps_cons_ok _ _ _ _ heq]
    exact (ih2 hk.2).trans h1
  exact executeStep.mutual_induct _ _ _ p1 p2 p3 p4 p5 p6 p7 p8 p9

/-- Joint membership invariant: every table entry present after running a
step, a conditional or a step list was present before or is keyed by the
id of a Command step occurring (possibly nested) in the executed
fragment. -/
theorem exec_mem_all (p : Nat × StepResult) :
    (∀ (st : ExecState) (s : Step), p ∈ (executeStep st s).1.step_results →
      p ∈ st.step_results ∨ p.1 ∈ commandIdsStep s) ∧
    (∀ (st : ExecState) (c : ConditionalStatement), p ∈ (executeConditional st c).1.step_results →
      p ∈ st.step_results ∨ p.1 ∈ commandIdsCond c) ∧
    (∀ (st : ExecState) (steps : List Step), p ∈ (executeSteps st steps).1.step_results →
      p ∈ st.step_results ∨ p.1 ∈ commandIdsList steps) := by
  have p1 : ∀ (st : ExecState) (i : Nat) (command : Command),
      p ∈ (executeStep st (.mk i (.Command command))).1.step_results →
      p ∈ st.step_results ∨ p.1 ∈ commandIdsStep (.mk i (.Command command)) := by
    intro st i command hp
    rw [executeStep_command] at hp
    have h := executeCommand_mem _ _ _ _ hp
    rw [commandIdsStep_command]
    simpa [pushOut] using h
  have p2 : ∀ (st : ExecState) (i : Nat) (conditional : ConditionalStatement),
      (p ∈ (executeConditional (pushOut st ("  📋 Step " ++ toString i ++ ": "))
          conditional).1.step_results →
        p ∈ (pushOut st ("  📋 Step " ++ toString i ++ ": ")).step_results ∨
          p.1 ∈ commandIdsCond conditional) →
      p ∈ (executeStep st (.mk i (.Conditional conditional))).1.step_results →
      p ∈ st.step_results ∨ p.1 ∈ commandIdsStep (.mk i (.Conditional conditional)) := by
    intro st i conditional ih hp
    rw [executeStep_conditional] at hp
    rw [commandIdsStep_conditional]
    simpa [pushOut] using ih hp
  have p3 : ∀ (st : ExecState) (c : Expression) (if_steps : List Step)
      (else_steps : Option (List Step)) (e : String),
      evaluateCondition st.variables st.step_results c = .error e →
      p ∈ (executeConditional st (.mk c if_steps else_steps)).1.step_results →
      p ∈ st.step_results ∨ p.1 ∈ commandIdsCond (.mk c if_steps else_steps) := by
    intro st c if_steps else_steps e heq hp
    rw [executeConditional_error _ _ _ _ _ heq] at hp
    exact .inl hp
  have p4 : ∀ (st : ExecState) (c : Expression) (if_steps : List Step)
      (else_steps : Option (List Step)),
      evaluateCondition st.variables st.step_results c = .ok true →
      (p ∈ (executeSteps (pushOut st "    ✅ Condition is true, executing if block")
          if_steps).1.step_results →
        p ∈ (pushOut st "    ✅ Condition is true, executing if block").step_results ∨
          p.1 ∈ commandIdsList if_steps) →
      p ∈ (executeConditional st (.mk c if_steps else_steps)).1.step_results →
      p ∈ st.step_results ∨ p.1 ∈ commandIdsCond (.mk c if_steps else_steps) := by
    intro st c if_steps else_steps heq ih hp
    rw [executeConditional_true _ _ _ _ heq] at hp
    rcases ih hp with h | h
    · exact .inl h
    · refine .inr ?_
      rw [commandIdsCond_eq]
      exact List.mem_append_left _ h
  have p5 : ∀ (st : ExecState) (c : Expression) (if_steps : List Step)
      (condition_result : Bool),
      evaluateCondition st.variables st.step_results c = .ok condition_result →
      ¬condition_result = true →
      ∀ (steps : List Step),
      (p ∈ (executeSteps (pushOut (pushOut st "    ❌ Condition is false")
          "    🔄 Executing else block") steps).1.step_results →
        p ∈ (pushOut (pushOut st "    ❌ Condition is false")
          "    🔄 Executing else block").step_results ∨ p.1 ∈ commandIdsList steps) →
      p ∈ (executeConditional st (.mk c if_steps (some steps))).1.step_results →
      p ∈ st.step_results ∨ p.1 ∈ commandIdsCond (.mk c if_steps (some steps)) := by
    intro st c if_steps condition_result heq hcr steps ih hp
    simp only [Bool.not_eq_true] at hcr
    subst hcr
    rw [executeConditional_false_some _ _ _ _ heq] at hp
    rcases ih hp with h | h
    · exact .inl h
    · refine .inr ?_
      rw [commandIdsCond_some]
      exact List.mem_append_right _ h
  have p6 : ∀ (st : ExecState) (c : Expression) (if_steps : List Step)
      (condition_result : Bool),
      evaluateCondition st.variables st.step_results c = .ok condition_result →
      ¬condition_result = true →
      p ∈ (executeConditional st (.mk c if_steps none)).1.step_results →
      p ∈ st.step_results ∨ p.1 ∈ commandIdsCond (.mk c if_steps none) := by
    intro st c if_steps condition_result heq hcr hp
    simp only [Bool.not_eq_true] at hcr
    subst hcr
    rw [executeConditional_false_none _ _ _ heq] at hp
    exact .inl hp
  have p7 : ∀ (st : ExecState), p ∈ (executeSteps st []).1.step_results →
      p ∈ st.step_results ∨ p.1 ∈ commandIdsList [] := by
    intro st hp
    rw [executeSteps_nil] at hp
    exact .inl hp
  have p8 : ∀ (st : ExecState) (s : Step) (rest : List Step) (st' : ExecState) (e : String),
      executeStep st s = (st', some e) →
      (p ∈ (executeStep st s).1.step_results →
        p ∈ st.step_results ∨ p.1 ∈ commandIdsStep s) →
      p ∈ (executeSteps st (s :: rest)).1.step_results →
      p ∈ st.step_results ∨ p.1 ∈ commandIdsList (s :: rest) := by
    intro st s rest st' e heq ih hp
    rw [executeSteps_cons_error _ _ _ _ _ heq] at hp
    rcases ih (by rw [heq]; exact hp) with h | h
    · exact .inl h
    · refine .inr ?_
      rw [commandIdsList_cons]
      exact List.mem_append_left _ h
  have p9 : ∀ (st : ExecState) (s : Step) (rest : List Step) (st' : ExecState),
      executeStep st s = (st', none) →
      (p ∈ (executeStep st s).1.step_results →
        p ∈ st.step_results ∨ p.1 ∈ commandIdsStep s) →
      (p ∈ (executeSteps st' rest).1.step_results →
        p ∈ st'.step_results ∨ p.1 ∈ commandIdsList rest) →
      p ∈ (executeSteps st (s :: rest)).1.step_results →
      p ∈ st.step_results ∨ p.1 ∈ commandIdsList (s :: rest) := by
    intro st s rest st' heq ih1 ih2 hp
    rw [executeSteps_cons_ok _ _ _ _ heq] at hp
    rcases ih2 hp with h | h
    · rcases ih1 (by rw [heq]; exact h) with h2 | h2
      · exact .inl h2
      · refine .inr ?_
        rw [commandIdsList_cons]
        exact List.mem_append_left _ h2
    · refine .inr ?_
      rw [commandIdsList_cons]
      exact List.mem_append_right _ h
  exact executeStep.mutual_induct _ _ _ p1 p2 p3 p4 p5 p6 p7 p8 p9

theorem executeVariable_results (st : ExecState) (v : VariableDeclaration) :
    (executeVariable st v).1.step_results = st.step_results := by
  unfold executeVariable
  split <;> rfl

theorem executeVariables_results (st : ExecState) (vs : List VariableDeclaration) :
    (executeVariables st vs).1.step_results = st.step_results := by
  induction vs generalizing st with
  | nil => rfl
  | cons v rest ih =>
    unfold executeVariables
    split
    · next st' e heq =>
      have h := executeVariable_results st v
      rw [heq] at h
      exact h
    · next st' heq =>
      have h := executeVariable_results st v
      rw [heq] at h
      rw [ih st']
      exact h

theorem executeWorkflow_mem (p : Nat × StepResult) (st : ExecState) (w : Workflow)
    (hp : p ∈ (executeWorkflow st w).1.step_results) :
    p ∈ st.step_results ∨ p.1 ∈ commandIdsList w.steps := by
  unfold executeWorkflow at hp
  split at hp
  · next st' e heq =>
    have h := executeVariables_results (pushOut st ("\n🔄 Executing workflow: " ++ w.name)) w.variables
    rw [heq] at h
    rw [h] at hp
    exact .inl hp
  · next st' heq =>
    have h := executeVariables_results (pushOut st ("\n🔄 Executing workflow: " ++ w.name)) w.variables
    rw [heq] at h
    rcases (exec_mem_all p).2.2 st' w.steps hp with h2 | h2
    · rw [h] at h2
      exact .inl h2
    · exact .inr h2

theorem executeWorkflows_mem (p : Nat × StepResult) (st : ExecState) (ws : List Workflow)
    (hp : p ∈ (executeWorkflows st ws).1.step_results) :
    p ∈ st.step_results ∨ p.1 ∈ commandIdsWorkflows ws := by
  induction ws generalizing st with
  | nil => exact .inl hp
  | cons w rest ih =>
    unfold executeWorkflows at hp
    split at hp
    · next st' e heq =>
      have h := executeWorkflow_mem p st w
      rw [heq] at h
      rcases h hp with h2 | h2
      · exact .inl h2
      · exact .inr (by simp [commandIdsWorkflows, h2])
    · next st' heq =>
      rcases ih st' hp with h2 | h2
      · have h := executeWorkflow_mem p st w
        rw [heq] at h
        rcases h h2 with h3 | h3
        · exact .inl h3
        · exact .inr (by simp [commandIdsWorkflows, h3])
      · exact .inr (by simp [commandIdsWorkflows, h2])

theorem execute_mem (p : Nat × StepResult) (st : ExecState) (program : Program)
    (hp : p ∈ (execute st program).1.step_results) :
    p ∈ st.step_results ∨ p.1 ∈ commandIdsWorkflows program.workflows := by
  unfold execute at hp
  split at hp
  · next st' e heq =>
    have h := executeVariables_results
      (pushOut (pushOut st "🚀 Executing TradeMinutes DSL Program")
        "=====================================") program.variables
    rw [heq] at h
    rw [h] at hp
    exact .inl hp
  · next st' heq =>
    have h := executeVariables_results
      (pushOut (pushOut st "🚀 Executing TradeMinutes DSL Program")
        "=====================================") program.variables
    rw [heq] at h
    rcases executeWorkflows_mem p st' program.workflows hp with h2 | h2
    · rw [h] at h2
      exact .inl h2
    · exact .inr h2

/-! Parser reduction lemmas. -/

theorem parseBinaryExpression_primary (fuel : Nat) (toks rest : List Token) (e : Expression)
    (hp : parsePrimary toks = .ok (e, rest)) :
    parseBinaryExpression fuel toks = binLoop fuel e rest := by
  unfold parseBinaryExpression
  rw [hp]

theorem binLoop_binop (fuel : Nat) (left right : Expression) (t : Token)
    (rest rest' : List Token) (hb : isBinOp t.token_type = true)
    (hp : parsePrimary rest = .ok (right, rest')) :
    binLoop (fuel + 1) left (t :: rest) =
      binLoop fuel (.BinaryExpression left t.lexeme right) rest' := by
  conv_lhs => unfold binLoop
  rw [show matchBinOp (t :: rest) = some (t, rest) from by simp [matchBinOp, hb]]
  simp only [hp]

theorem binLoop_stop (fuel : Nat) (left : Expression) (toks : List Token)
    (hb : matchBinOp toks = none) :
    binLoop (fuel + 1) left toks = .ok (left, toks) := by
  conv_lhs => unfold binLoop
  rw [hb]

/-! Lexer lemma: a string scan that never finds its closing quote fails. -/

theorem scanString_unterminated (quote : Char) (rest : List Char) (line : Nat)
    (h : quote ∉ rest) : scanString quote rest line = .error "Unterminated string" := by
  induction rest generalizing line with
  | nil => rfl
  | cons c cs ih =>
    simp only [List.mem_cons, not_or] at h
    unfold scanString
    rw [if_neg (Ne.symm h.1)]
    rw [ih _ h.2]

/-! ## Claims -/

/-- C1: the spec's Scenario A source — `let a = "x"` followed by
`workflow "W" { step 1: print(a + "y") }` — tokenizes successfully, but
parsing fails with "Expected command name": the lexer reserves `print` as
the keyword token `Print` while `Parser::parse_command` accepts only an
`Identifier` token for a command name.  Execution therefore never runs and
no StepResult is produced, contradicting the claimed successful run with
one StepResult (data "xy", status 200, success true).  The executor even
carries a dedicated `print` handler that this parser can never reach. -/
theorem c1_scenarioA_rejected :
    (tokenize srcA).isOk = true ∧
    parse_dsl srcA = .error "Expected command name" ∧
    run_dsl srcA = .error "Expected command name" :=
  ⟨rfl, rfl, rfl⟩

/-- C2 counterexample: `bogus(x)` with `x` unbound names a command absent
from the handler table, yet executing it returns a RuntimeError (argument
evaluation fails before dispatch) and stores nothing — refuting the claim
as stated, which promises success for every Command step with an unknown
name. -/
theorem c2_unknown_command_failing_arg :
    executeCommand newState 1 ⟨"bogus", [.Identifier "x"]⟩ =
      (newState, some "Undefined variable: x") ∧
    (executeCommand newState 1 ⟨"bogus", [.Identifier "x"]⟩).1.step_results = [] :=
  ⟨rfl, rfl⟩

/-- C2 (amended): for every Command step whose name is absent from the
handler table and whose argument expressions all evaluate successfully,
execution returns without a RuntimeError, stores
StepResult{success=false, data="", status=400,
message="Unknown command: <name>"} under the step's id, and execution
continues with the subsequent steps. -/
theorem c2_unknown_command_recoverable (st : ExecState) (step_id : Nat) (name : String)
    (args : List Expression) (vals : List String)
    (hn : name ∉ handlerNames)
    (ha : evalArgs st.variables st.step_results args = .ok vals) :
    (executeCommand st step_id ⟨name, args⟩).2 = none ∧
    (executeCommand st step_id ⟨name, args⟩).1.step_results.lookup step_id =
      some ⟨false, "", 400, "Unknown command: " ++ name⟩ ∧
    ∀ (rest : List Step),
      executeSteps st (⟨step_id, .Command ⟨name, args⟩⟩ :: rest) =
        executeSteps (executeCommand
          (pushOut st ("  📋 Step " ++ toString step_id ++ ": ")) step_id ⟨name, args⟩).1 rest := by
  simp only [handlerNames, List.mem_cons, List.not_mem_nil, or_false, not_or] at hn
  obtain ⟨n1, n2, n3, n4, n5, n6, n7, n8, n9, n10⟩ := hn
  have key : ∀ (st' : ExecState),
      evalArgs st'.variables st'.step_results args = .ok vals →
      executeCommand st' step_id ⟨name, args⟩ =
        (insertResult (pushOut st' ("    ⚠️  Unknown command: " ++ name)) step_id
          ⟨false, "", 400, "Unknown command: " ++ name⟩, none) := by
    intro st' ha'
    simp only [executeCommand, ha']
    simp [n1, n2, n3, n4, n5, n6, n7, n8, n9, n10]
  refine ⟨?_, ?_, ?_⟩
  · rw [key st ha]
  · rw [key st ha]
    simp [insertResult, pushOut, List.lookup]
  · intro rest
    have hcmd := key (pushOut st ("  📋 Step " ++ toString step_id ++ ": ")) ha
    have h1 : executeStep st (.mk step_id (.Command ⟨name, args⟩)) =
        ((executeCommand (pushOut st ("  📋 Step " ++ toString step_id ++ ": "))
          step_id ⟨name, args⟩).1, none) := by
      rw [executeStep_command, hcmd]
    exact executeSteps_cons_ok _ _ _ _ h1

/-- C2 witness: the amended claim at a concrete input (`bogus("y")` as
step 7 of a fresh executor). -/
theorem c2_unknown_command_recoverable_witness :
    (executeCommand newState 7 ⟨"bogus", [.StringLiteral "y"]⟩).2 = none ∧
    (executeCommand newState 7 ⟨"bogus", [.StringLiteral "y"]⟩).1.step_results.lookup 7 =
      some ⟨false, "", 400, "Unknown command: bogus"⟩ :=
  ⟨(c2_unknown_command_recoverable newState 7 "bogus" [.StringLiteral "y"] ["y"]
      (by decide) rfl).1,
   (c2_unknown_command_recoverable newState 7 "bogus" [.StringLiteral "y"] ["y"]
      (by decide) rfl).2.1⟩

/-- C3: a StepReference whose step id has no stored StepResult fails with
the step-not-found RuntimeError; a failing step halts the whole step list
at that point (subsequent steps are not executed and the state is exactly
the failing step's state); and on the Scenario-C style program `progC`
(step 1 prints, step 2 references the never-run step 9, step 3 follows)
the program's execution stops with "Step 9 not found" and the step-result
table contains exactly the result of step 1, the only Command step that
completed before the failure. -/
theorem c3_missing_step_reference_halts :
    (∀ (vars : List (String × String)) (results : List (Nat × StepResult))
        (step_id : Nat) (property : Option String),
      results.lookup step_id = none →
      evaluateExpression vars results (.StepReference step_id property) =
        .error ("Step " ++ toString step_id ++ " not found")) ∧
    (∀ (st st' : ExecState) (s : Step) (rest : List Step) (e : String),
      executeStep st s = (st', some e) →
      executeSteps st (s :: rest) = (st', some e)) ∧
    ((execute newState progC).2 = some "Step 9 not found" ∧
      (execute newState progC).1.step_results =
        [(1, ⟨true, "a", 200, "Print executed successfully"⟩)]) := by
  refine ⟨?_, ?_, rfl, rfl⟩
  · intro vars results step_id property h
    unfold evaluateExpression
    rw [h]
  · intro st st' s rest e heq
    exact executeSteps_cons_error st st' s rest e heq

/-- C3 witness: the missing-step error at a concrete input (step 9 with an
empty table), via the claim theorem. -/
theorem c3_missing_step_reference_halts_witness :
    evaluateExpression [] [] (.StepReference 9 (some "data")) =
      .error "Step 9 not found" :=
  c3_missing_step_reference_halts.1 [] [] 9 (some "data") rfl

/-- C4 counterexample: a Conditional whose condition is the
BinaryExpression `"a" + "b"` does not fall back to string truthiness as
claimed: `evaluate_condition` matches every BinaryExpression first and
raises "Unknown comparison operator: +", so the conditional takes neither
branch — in particular it does not execute the if-branch the claim
predicts for the truthy string "ab". -/
theorem c4_plus_condition_cex :
    executeConditional newState ⟨.BinaryExpression (.StringLiteral "a") "+" (.StringLiteral "b"),
      [⟨1, .Command ⟨"print", [.StringLiteral "hi"]⟩⟩], none⟩ =
      (newState, some "Unknown comparison operator: +") ∧
    executeConditional newState ⟨.BinaryExpression (.StringLiteral "a") "+" (.StringLiteral "b"),
      [⟨1, .Command ⟨"print", [.StringLiteral "hi"]⟩⟩], none⟩ ≠
      executeSteps (pushOut newState "    ✅ Condition is true, executing if block")
        [⟨1, .Command ⟨"print", [.StringLiteral "hi"]⟩⟩] :=
  ⟨rfl, by decide⟩

/-- C4 (amended): for a Conditional whose condition is not a
BinaryExpression at all, the condition is evaluated to a string and the
if-branch is taken iff that string is not "", "0" or "false"; otherwise
the else-branch runs if present, else nothing.  A BinaryExpression
condition whose operator is outside ==, !=, >, <, >=, <= — such as + —
instead fails with an unknown-comparison-operator RuntimeError and takes
neither branch. -/
theorem c4_condition_truthiness (st : ExecState) (cond : Expression) (ifs : List Step)
    (els : Option (List Step)) (v : String)
    (hnb : isBinaryExpression cond = false)
    (hv : evaluateExpression st.variables st.step_results cond = .ok v) :
    ((!v.isEmpty && v != "0" && v != "false") = true →
      executeConditional st ⟨cond, ifs, els⟩ =
        executeSteps (pushOut st "    ✅ Condition is true, executing if block") ifs) ∧
    ((!v.isEmpty && v != "0" && v != "false") = false →
      executeConditional st ⟨cond, ifs, els⟩ =
        (match els with
         | some steps => executeSteps (pushOut (pushOut st "    ❌ Condition is false")
             "    🔄 Executing else block") steps
         | none => (pushOut st "    ❌ Condition is false", none))) ∧
    (∀ (l r : Expression) (lv rv op : String),
      evaluateExpression st.variables st.step_results l = .ok lv →
      evaluateExpression st.variables st.step_results r = .ok rv →
      op ∉ ["==", "!=", ">", "<", ">=", "<="] →
      executeConditional st ⟨.BinaryExpression l op r, ifs, els⟩ =
        (st, some ("Unknown comparison operator: " ++ op))) := by
  have hc : evaluateCondition st.variables st.step_results cond =
      .ok (!v.isEmpty && v != "0" && v != "false") := by
    cases cond with
    | BinaryExpression l op r => simp [isBinaryExpression] at hnb
    | StringLiteral s =>
      simp only [evaluateCondition]
      rw [hv]
    | NumberLiteral q =>
      simp only [evaluateCondition]
      rw [hv]
    | Identifier n =>
      simp only [evaluateCondition]
      rw [hv]
    | PropertyAccess o pr =>
      simp only [evaluateCondition]
      rw [hv]
    | StepReference i pr =>
      simp only [evaluateCondition]
      rw [hv]
  refine ⟨?_, ?_, ?_⟩
  · intro ht
    rw [ht] at hc
    exact executeConditional_true _ _ _ _ hc
  · intro hf
    rw [hf] at hc
    cases els with
    | some steps => exact executeConditional_false_some _ _ _ _ hc
    | none => exact executeConditional_false_none _ _ _ hc
  · intro l r lv rv op hl hr hop
    simp only [List.mem_cons, List.not_mem_nil, or_false, not_or] at hop
    obtain ⟨o1, o2, o3, o4, o5, o6⟩ := hop
    have hcond : evaluateCondition st.variables st.step_results (.BinaryExpression l op r) =
        .error ("Unknown comparison operator: " ++ op) := by
      simp only [evaluateCondition]
      rw [hl, hr]
      simp [o1, o2, o3, o4, o5, o6]
    exact executeConditional_error _ _ _ _ _ hcond

/-- C4 witness: the amended claim at a concrete input — condition
`"x"` (a StringLiteral, truthy), empty if-branch. -/
theorem c4_condition_truthiness_witness :
    executeConditional newState ⟨.StringLiteral "x", [], none⟩ =
      executeSteps (pushOut newState "    ✅ Condition is true, executing if block") [] :=
  (c4_condition_truthiness newState (.StringLiteral "x") [] none "x" rfl rfl).1 rfl

/-- C6: a Command step named print, log or notify whose arguments all
evaluate successfully completes without error and stores a StepResult
whose data is the evaluated arguments joined with single spaces, with
success = true and status = 200. -/
theorem c6_print_log_notify (st : ExecState) (step_id : Nat) (name : String)
    (args : List Expression) (vals : List String)
    (hn : name ∈ ["print", "log", "notify"])
    (ha : evalArgs st.variables st.step_results args = .ok vals) :
    (executeCommand st step_id ⟨name, args⟩).2 = none ∧
    ∃ m, (executeCommand st step_id ⟨name, args⟩).1.step_results.lookup step_id =
      some ⟨true, String.intercalate " " vals, 200, m⟩ := by
  simp only [List.mem_cons, List.not_mem_nil, or_false] at hn
  rcases hn with h | h | h <;> subst h
  · refine ⟨?_, "Print executed successfully", ?_⟩ <;>
      simp [executeCommand, ha, insertResult, pushOut, List.lookup]
  · refine ⟨?_, "Log executed successfully", ?_⟩ <;>
      simp [executeCommand, ha, insertResult, pushOut, List.lookup]
  · refine ⟨?_, "Notification sent successfully", ?_⟩ <;>
      simp [executeCommand, ha, insertResult, pushOut, List.lookup]

/-- C6 witness: `print("a", "b")` as step 4 stores data "a b", success
true, status 200. -/
theorem c6_print_log_notify_witness :
    (executeCommand newState 4 ⟨"print", [.StringLiteral "a", .StringLiteral "b"]⟩).2 = none ∧
    ∃ m, (executeCommand newState 4
        ⟨"print", [.StringLiteral "a", .StringLiteral "b"]⟩).1.step_results.lookup 4 =
      some ⟨true, "a b", 200, m⟩ :=
  c6_print_log_notify newState 4 "print" [.StringLiteral "a", .StringLiteral "b"] ["a", "b"]
    (by decide) rfl

/-- C7: the spec's Scenario B source — `step 1: fetch("u")` followed by
`if (step 1.status == 200) { step 2: print("ok") } else
{ step 3: print("bad") }` — tokenizes successfully, but parsing fails
immediately with "Expected workflow or variable declaration":
`Parser::parse` accepts only `workflow` / `let` / `var` / `const` at top
level, so a bare top-level `step` is rejected (and, independently,
`fetch` / `print` lex as keyword tokens that `parse_command` cannot
accept).  Execution never runs: neither step 2 nor step 3 executes and no
trace is produced, contradicting the claimed successful run. -/
theorem c7_scenarioB_rejected :
    (tokenize srcB).isOk = true ∧
    parse_dsl srcB = .error "Expected workflow or variable declaration" ∧
    run_dsl srcB = .error "Expected workflow or variable declaration" :=
  ⟨rfl, rfl, rfl⟩

/-- C8: binary operator chains parse strictly left-nested at a single
precedence level: for any token sequence Primary op1 Primary op2 Primary
(op1, op2 drawn from +, ==, !=, >, <, >=, <=, and nothing further to
consume as an operator), `parse_binary_expression` returns
BinaryExpression{ BinaryExpression{ e1, op1, e2 }, op2, e3 }, whatever
the two operators are.  The fuel offset covers the two loop iterations
plus the final operator check. -/
theorem c8_left_assoc (fuel : Nat) (toks toks1 toks2 toks3 : List Token)
    (e1 e2 e3 : Expression) (t1 t2 : Token)
    (h1 : parsePrimary toks = .ok (e1, t1 :: toks1))
    (hb1 : isBinOp t1.token_type = true)
    (h2 : parsePrimary toks1 = .ok (e2, t2 :: toks2))
    (hb2 : isBinOp t2.token_type = true)
    (h3 : parsePrimary toks2 = .ok (e3, toks3))
    (hend : matchBinOp toks3 = none) :
    parseBinaryExpression (fuel + 3) toks =
      .ok (.BinaryExpression (.BinaryExpression e1 t1.lexeme e2) t2.lexeme e3, toks3) := by
  rw [parseBinaryExpression_primary _ _ _ _ h1]
  have e31 : fuel + 3 = (fuel + 2) + 1 := rfl
  rw [e31, binLoop_binop _ _ _ _ _ _ hb1 h2]
  have e21 : fuel + 2 = (fuel + 1) + 1 := rfl
  rw [e21, binLoop_binop _ _ _ _ _ _ hb2 h3]
  exact binLoop_stop _ _ _ hend

/-- C8 witness: the token sequence `1 + 2 == 3` parses as
`(1 + 2) == 3`. -/
theorem c8_left_assoc_witness :
    parseBinaryExpression 3 [⟨.Number, "1", some "1", 1⟩, ⟨.Plus, "+", none, 1⟩,
      ⟨.Number, "2", some "2", 1⟩, ⟨.EqualEqual, "==", none, 1⟩,
      ⟨.Number, "3", some "3", 1⟩, ⟨.Eof, "", none, 1⟩] =
      .ok (.BinaryExpression
        (.BinaryExpression (.NumberLiteral ⟨1, 0⟩) "+" (.NumberLiteral ⟨2, 0⟩)) "=="
        (.NumberLiteral ⟨3, 0⟩), [⟨.Eof, "", none, 1⟩]) :=
  c8_left_assoc 0
    [⟨.Number, "1", some "1", 1⟩, ⟨.Plus, "+", none, 1⟩, ⟨.Number, "2", some "2", 1⟩,
      ⟨.EqualEqual, "==", none, 1⟩, ⟨.Number, "3", some "3", 1⟩, ⟨.Eof, "", none, 1⟩]
    [⟨.Number, "2", some "2", 1⟩, ⟨.EqualEqual, "==", none, 1⟩, ⟨.Number, "3", some "3", 1⟩,
      ⟨.Eof, "", none, 1⟩]
    [⟨.Number, "3", some "3", 1⟩, ⟨.Eof, "", none, 1⟩]
    [⟨.Eof, "", none, 1⟩]
    (.NumberLiteral ⟨1, 0⟩) (.NumberLiteral ⟨2, 0⟩) (.NumberLiteral ⟨3, 0⟩)
    ⟨.Plus, "+", none, 1⟩ ⟨.EqualEqual, "==", none, 1⟩
    rfl rfl rfl rfl rfl rfl

/-- C9: a string literal whose opening quote is never matched by a
closing quote of the same kind before end of input fails tokenization:
the string scanner errors with "Unterminated string" whenever the
remaining input lacks the opening quote character, and on the spec's
example `workflow "W" { step 1: print("x }` tokenization (and hence
`run_dsl`, before any parsing) fails with exactly that error, producing
no token sequence. -/
theorem c9_unterminated_string :
    (∀ (quote : Char) (rest : List Char) (line : Nat), quote ∉ rest →
      scanString quote rest line = .error "Unterminated string") ∧
    tokenize srcC = .error "Unterminated string" ∧
    run_dsl srcC = .error "Unterminated string" :=
  ⟨scanString_unterminated, rfl, rfl⟩

/-- C9 witness: the scanner-level clause at the concrete tail `x }` of
the spec's example (no closing double quote ahead). -/
theorem c9_unterminated_string_witness :
    scanString '"' ['x', ' ', '\x7d'] 1 = .error "Unterminated string" :=
  c9_unterminated_string.1 '"' ['x', ' ', '\x7d'] 1 (by decide)

/-- C10 counterexample: a Conditional step with id 5 whose taken branch
contains a Command step that also has id 5.  After executing the
conditional step a StepResult IS stored under the step's own id (the
nested Command inserted it; step ids are global, spec §9), refuting the
literal reading of "executing a Step whose content is a Conditional never
stores a StepResult under that step's own id". -/
theorem c10_nested_same_id_cex :
    (executeStep newState ⟨5, .Conditional ⟨.StringLiteral "1",
      [⟨5, .Command ⟨"print", [.StringLiteral "x"]⟩⟩], none⟩⟩).1.step_results.lookup 5 =
      some ⟨true, "x", 200, "Print executed successfully"⟩ ∧
    newState.step_results.lookup 5 = none :=
  ⟨rfl, rfl⟩

/-- C10 (amended): only Command steps ever insert into the step-result
table.  A Step whose content is a Conditional performs no insertion of
its own: unless a Command step with the very same id occurs inside one of
its branches, the table entry for that id is unchanged by executing it;
and after executing any Program from a fresh executor, every key in the
step-result table is the id of a Command step occurring in the program
(possibly nested inside a conditional branch of some workflow). -/
theorem c10_only_commands_insert :
    (∀ (st : ExecState) (id : Nat) (c : ConditionalStatement),
      id ∉ commandIdsCond c →
      ((executeStep st ⟨id, .Conditional c⟩).1.step_results.lookup id) =
        st.step_results.lookup id) ∧
    (∀ (program : Program) (p : Nat × StepResult),
      p ∈ (execute newState program).1.step_results →
      p.1 ∈ commandIdsWorkflows program.workflows) := by
  constructor
  · intro st id c hc
    exact (exec_lookup_all id).1 st ⟨id, .Conditional c⟩
      (by rw [commandIdsStep_conditional]; exact hc)
  · intro program p hp
    rcases execute_mem p newState program hp with h | h
    · simp [newState] at h
    · exact h

/-- C10 witness: the amended claim at a concrete input — a conditional
step with id 3 and an id-3-free branch leaves the entry for id 3 (here
absent) unchanged. -/
theorem c10_only_commands_insert_witness :
    ((executeStep newState ⟨3, .Conditional ⟨.StringLiteral "1", [],
      none⟩⟩).1.step_results.lookup 3) = newState.step_results.lookup 3 :=
  c10_only_commands_insert.1 newState 3 ⟨.StringLiteral "1", [], none⟩ (by decide)
